import Mathlib

/-!
Verification of the element-resolution engine of the `python_window_automate`
repository, as a shallow embedding in Lean 4.

The embedding follows the source files:
  * `core_logic.py`   — operator tables, `get_property_value`, `ElementFinder`
    (`find`, `_apply_filters`, `_check_condition`, `_check_advanced_condition`,
    `_apply_selectors`, `_get_sort_key_function`);
  * `core_controller.py` — `UIController._find_with_retry`;
  * `app_manager.py`  — `AppManager` lifecycle methods (`launch`, `attach`,
    `close`, `kill`, `get_window`) and their cache handling.

Modelling conventions:
  * Python values that the engine manipulates are represented by `PVal`
    (strings, ints, floats as exact rationals, bools, `None`, the tuples the
    engine actually uses — pairs for `(operator, operand)` criteria and
    quadruples for rectangles — and lists of strings for `in` operands).
  * Wall-clock time is passed explicitly: the retry loop uses natural-number
    time stamps, the finder's filter loop receives the elapsed time at which
    each candidate is examined.
  * Calls into the platform accessibility layer (pywinauto / COM) are oracles:
    total functions supplied as parameters, fallible ones returning `Except`.
  * The unbounded `while True` retry loop is driven by explicit fuel; the
    theorems compute sufficient fuel from the timeout.
-/

namespace PWAuto

/-! ## Python-value model -/

/-- ASCII lower-casing of one character (models Python `str.lower` on the
ASCII identifiers and titles the engine compares). -/
def lowerChar (c : Char) : Char :=
  if 'A' ≤ c ∧ c ≤ 'Z' then Char.ofNat (c.toNat + 32) else c

/-- Python `str.lower` (ASCII fragment). -/
def strLower (t : String) : String := ⟨t.data.map lowerChar⟩

/-- Python `str.startswith`. -/
def strStarts (t pre : String) : Bool := pre.data.isPrefixOf t.data

/-- Python substring containment `needle in hay`. -/
def strContainsSub (hay needle : String) : Bool :=
  (List.range (hay.data.length + 1)).any (fun k => needle.data.isPrefixOf (hay.data.drop k))

/-- The Python values flowing through the engine: property values and spec
criteria.  Tuples are modelled at the arities the engine uses: `pair` for
`(operator, operand)` criteria, `quad` for 4-tuples of rectangle coordinates;
`strList` models the string lists used as `('in', [...])` operands. -/
inductive PVal where
  | none_ : PVal
  | s : String → PVal
  | i : Int → PVal
  | f : ℚ → PVal
  | b : Bool → PVal
  | pair : PVal → PVal → PVal
  | quad : PVal → PVal → PVal → PVal → PVal
  | strList : List String → PVal
  deriving DecidableEq, Repr

/-- Python `str(v)` for the values the engine stringifies (`_check_condition`
coerces both sides of every string operator with `str`).  Rendering of floats
and tuples is an approximation; the engine's claims only stringify strings,
ints and bools. -/
def pyStr : PVal → String
  | .none_ => "None"
  | .s t => t
  | .i n => toString n
  | .f q => toString q
  | .b true => "True"
  | .b false => "False"
  | .pair _ _ => "(tuple)"
  | .quad _ _ _ _ => "(tuple)"
  | .strList _ => "[list]"

/-- Python truthiness (`if v:`). -/
def pyTruthy : PVal → Bool
  | .none_ => false
  | .s t => t ≠ ""
  | .i n => n ≠ 0
  | .f q => q ≠ 0
  | .b v => v
  | .pair _ _ => true
  | .quad _ _ _ _ => true
  | .strList xs => xs ≠ []

/-- Numeric reading of a value under Python `==` (ints, floats and bools
compare numerically across kinds). -/
def pyNumOfVal : PVal → Option ℚ
  | .i n => some (n : ℚ)
  | .f q => some q
  | .b v => some (if v then 1 else 0)
  | _ => none

/-- Python `==` on the modelled values: numeric kinds compare numerically,
strings compare as strings, `None` only equals `None`, tuples compare
componentwise, and values of unrelated kinds are unequal. -/
def pyEq : PVal → PVal → Bool
  | .pair a b, .pair c d => pyEq a c && pyEq b d
  | .quad a b c d, .quad a' b' c' d' => pyEq a a' && pyEq b b' && pyEq c c' && pyEq d d'
  | .s a, .s b => a == b
  | .none_, .none_ => true
  | .strList xs, .strList ys => xs == ys
  | x, y =>
    match pyNumOfVal x, pyNumOfVal y with
    | some p, some q => p == q
    | _, _ => false

/-- Value of a nonempty digit string. -/
def digitsVal (cs : List Char) : Option ℕ :=
  if cs ≠ [] ∧ cs.all Char.isDigit then
    some (cs.foldl (fun a c => 10 * a + (c.toNat - 48)) 0)
  else none

/-- Python `float(str)` on plain decimal literals: optional sign, digits with
an optional decimal point (`"1."`, `".5"` accepted; `"abc"`, `"."`, `""`
rejected).  Exponents / `inf` / `nan` are outside the engine's claims. -/
def parseFloatQ (t : String) : Option ℚ :=
  let (neg, cs) :=
    match t.data with
    | '-' :: r => (true, r)
    | '+' :: r => (false, r)
    | r => (false, r)
  let signed : ℚ → ℚ := fun q => if neg then -q else q
  match cs.splitOn '.' with
  | [w] => (digitsVal w).map (fun n => signed n)
  | [w, fr] =>
    if w = [] ∧ fr = [] then none
    else if (w.all Char.isDigit ∧ fr.all Char.isDigit) ∧ (w ≠ [] ∨ fr ≠ []) then
      some (signed ((w.foldl (fun a c => 10 * a + (c.toNat - 48)) 0 : ℕ) +
        (fr.foldl (fun a c => 10 * a + (c.toNat - 48)) 0 : ℕ) / ((10 : ℚ) ^ fr.length)))
    else none
  | _ => none

/-- Python `float(v)`: numeric kinds coerce, decimal strings parse, everything
else (`None`, tuples, non-numeric strings) raises — modelled as `none`
(`_check_condition` catches the error and yields `False`). -/
def pyFloat : PVal → Option ℚ
  | .i n => some (n : ℚ)
  | .f q => some q
  | .b v => some (if v then 1 else 0)
  | .s t => parseFloatQ t
  | .none_ => none
  | .pair _ _ => none
  | .quad _ _ _ _ => none
  | .strList _ => none

/-- Python list indexing `xs[i]` (negative indices count from the end);
`none` models an `IndexError`. -/
def pyGetIdx (xs : List α) (idx : Int) : Option α :=
  if 0 ≤ idx then xs.get? idx.toNat
  else if 0 ≤ (xs.length : Int) + idx then xs.get? ((xs.length : Int) + idx).toNat
  else none

/-- Python `dict.pop(k, None)` on an association list (the engine's specs are
dicts with unique keys). -/
def eraseKey (l : List (String × α)) (k : String) : List (String × α) :=
  l.filter (fun kv => kv.1 ≠ k)

/-! ## Operator and key tables (`core_logic.py` central definitions) -/

/-- `STRING_OPERATORS` from `core_logic.py`. -/
def STRING_OPERATORS : List String :=
  ["equals", "iequals", "contains", "icontains", "in", "regex",
   "not_equals", "not_iequals", "not_contains", "not_icontains"]

/-- `NUMERIC_OPERATORS` from `core_logic.py`. -/
def NUMERIC_OPERATORS : List String := [">", ">=", "<", "<="]

/-- `VALID_OPERATORS = STRING_OPERATORS ∪ NUMERIC_OPERATORS`. -/
def VALID_OPERATORS : List String := STRING_OPERATORS ++ NUMERIC_OPERATORS

/-- `POSITIONAL_KEYS` from `core_logic.py`. -/
def POSITIONAL_KEYS : List String :=
  ["within_rect", "to_right_of", "to_left_of", "above", "below"]

/-- `ADVANCED_SEARCH_KEYS = RELATIONAL_KEYS ∪ POSITIONAL_KEYS`. -/
def ADVANCED_SEARCH_KEYS : List String := "ancestor" :: POSITIONAL_KEYS

/-- The keys of `SELECTOR_DEFINITIONS`; `SORTING_KEYS` in `core_logic.py`. -/
def SORTING_KEYS : List String :=
  ["sort_by_scan_order", "sort_by_y_pos", "sort_by_x_pos", "sort_by_creation_time",
   "sort_by_height", "sort_by_width", "sort_by_title_length", "sort_by_child_count",
   "z_order_index"]

/-- The keys of `PARAMETER_DEFINITIONS` in `core_logic.py`, in source order. -/
def PARAMETER_KEYS : List String :=
  ["pwa_title", "pwa_auto_id", "pwa_control_type", "pwa_class_name", "proc_name",
   "pwa_framework_id", "win32_handle", "win32_styles", "win32_extended_styles",
   "state_is_visible", "state_is_enabled", "state_is_active", "state_is_minimized",
   "state_is_maximized", "state_is_focusable", "state_is_password", "state_is_offscreen",
   "state_is_content_element", "state_is_control_element",
   "geo_bounding_rect_tuple", "geo_center_point",
   "proc_pid", "proc_thread_id", "proc_path", "proc_cmdline", "proc_create_time",
   "proc_username",
   "rel_level", "rel_parent_handle", "rel_parent_title", "rel_labeled_by",
   "rel_child_count",
   "uia_value", "uia_toggle_state", "uia_expand_state", "uia_selection_items",
   "uia_range_value_info", "uia_grid_cell_info", "uia_table_row_headers",
   "ancestor", "within_rect", "to_right_of", "to_left_of", "above", "below",
   "sys_unique_id", "sys_parent_id", "pwa_object"]

/-- `PWA_PROPS = {k ∈ PARAMETER_DEFINITIONS | k.startswith('pwa_')}`. -/
def PWA_PROPS : List String := PARAMETER_KEYS.filter (fun k => strStarts k "pwa_")

/-- `WIN32_PROPS`. -/
def WIN32_PROPS : List String := PARAMETER_KEYS.filter (fun k => strStarts k "win32_")

/-- `STATE_PROPS`. -/
def STATE_PROPS : List String := PARAMETER_KEYS.filter (fun k => strStarts k "state_")

/-- `GEO_PROPS`. -/
def GEO_PROPS : List String := PARAMETER_KEYS.filter (fun k => strStarts k "geo_")

/-- `PROC_PROPS`. -/
def PROC_PROPS : List String := PARAMETER_KEYS.filter (fun k => strStarts k "proc_")

/-- `REL_PROPS`. -/
def REL_PROPS : List String := PARAMETER_KEYS.filter (fun k => strStarts k "rel_")

/-- `UIA_PROPS`. -/
def UIA_PROPS : List String := PARAMETER_KEYS.filter (fun k => strStarts k "uia_")

/-- `SUPPORTED_FILTER_KEYS = PWA | WIN32 | STATE | GEO | PROC | REL | UIA`. -/
def SUPPORTED_FILTER_KEYS : List String :=
  PWA_PROPS ++ WIN32_PROPS ++ STATE_PROPS ++ GEO_PROPS ++ PROC_PROPS ++ REL_PROPS ++ UIA_PROPS

/-! ## `ElementFinder._check_condition` (core_logic.py lines 533–565)

The element-level wrapper reads the property value through
`get_property_value` (modelled below); the criterion evaluation on the
already-read `actual_value` is `evalCriterion`.  `re.search` is an oracle
parameter `rm` (no claim exercises the `regex` operator). -/

/-- `is_operator_syntax`: the criterion is a 2-tuple whose first item, read
with `str(.)` and lower-cased, is a valid operator. -/
def isOperatorSyntax : PVal → Bool
  | .pair o _ => strLower (pyStr o) ∈ VALID_OPERATORS
  | _ => false

/-- The body of `_check_condition` after the property read: operator tuples
are dispatched on the operator name (string operators compare `str(.)` of
both sides, numeric operators compare `float(.)` of both sides and yield
`False` when coercion fails); any other criterion is compared with `==`. -/
def evalCriterion (rm : String → String → Bool) (actual criteria : PVal) : Bool :=
  if isOperatorSyntax criteria then
    match criteria with
    | .pair o target =>
      let op := strLower (pyStr o)
      if actual = .none_ then false
      else if op ∈ STRING_OPERATORS then
        let sa := pyStr actual
        let st := pyStr target
        if op = "equals" then sa == st
        else if op = "iequals" then strLower sa == strLower st
        else if op = "contains" then strContainsSub sa st
        else if op = "icontains" then strContainsSub (strLower sa) (strLower st)
        else if op = "in" then
          -- `str_actual in target_value`: membership for list operands,
          -- substring for string operands
          match target with
          | .strList xs => xs.contains sa
          | .s t => strContainsSub t sa
          | _ => false
        else if op = "regex" then rm st sa
        else if op = "not_equals" then sa != st
        else if op = "not_iequals" then strLower sa != strLower st
        else if op = "not_contains" then !(strContainsSub sa st)
        else if op = "not_icontains" then !(strContainsSub (strLower sa) (strLower st))
        else false
      else if op ∈ NUMERIC_OPERATORS then
        match pyFloat actual, pyFloat target with
        | some x, some y =>
          if op = ">" then decide (x > y)
          else if op = ">=" then decide (x ≥ y)
          else if op = "<" then decide (x < y)
          else if op = "<=" then decide (x ≤ y)
          else false
        | _, _ => false
      else false
    | _ => false
  else pyEq actual criteria

/-! ## `ElementFinder._check_advanced_condition` (core_logic.py lines 567–594)

Anchor resolution is a recursive `find` against the element's top-level
window; the geometric comparison it feeds is modelled here on bounding
rectangles.  `Rect` is pywinauto's `RECT` (left, top, right, bottom). -/

/-- A bounding rectangle as returned by `element.rectangle()`. -/
structure Rect where
  left : Int
  top : Int
  right : Int
  bottom : Int
  deriving DecidableEq, Repr

/-- `v_overlap = max(0, min(e.bottom, a.bottom) - max(e.top, a.top))`. -/
def vOverlap (e a : Rect) : Int :=
  max 0 (min e.bottom a.bottom - max e.top a.top)

/-- `h_overlap = max(0, min(e.right, a.right) - max(e.left, a.left))`. -/
def hOverlap (e a : Rect) : Int :=
  max 0 (min e.right a.right - max e.left a.left)

/-- The four positional comparisons of `_check_advanced_condition`, applied to
the candidate's and the resolved anchor's rectangles (source lines 588–592);
an unrecognised key falls through to `return False`. -/
def checkPositional (key : String) (e a : Rect) : Bool :=
  if key = "to_right_of" then decide (e.left ≥ a.right) && decide (vOverlap e a > 0)
  else if key = "to_left_of" then decide (e.right ≤ a.left) && decide (vOverlap e a > 0)
  else if key = "below" then decide (e.top ≥ a.bottom) && decide (hOverlap e a > 0)
  else if key = "above" then decide (e.bottom ≤ a.top) && decide (hOverlap e a > 0)
  else false

/-- The `within_rect` comparison: the element's rect fully inside the box. -/
def checkWithinRect (e : Rect) (boxL boxT boxR boxB : Int) : Bool :=
  decide (e.left ≥ boxL) && decide (e.top ≥ boxT) &&
  decide (e.right ≤ boxR) && decide (e.bottom ≤ boxB)

/-! ## `ElementFinder._apply_filters` (core_logic.py lines 486–531) -/

/-- `FILTER_PRIORITY` from `ElementFinder`. -/
def FILTER_PRIORITY : List String :=
  ["pwa_", "state_", "win32_", "geo_", "proc_", "rel_", "uia_"]

/-- `get_priority`: index of the first matching prefix, else the list length. -/
def getPriority (key : String) : ℕ :=
  (FILTER_PRIORITY.findIdx? (fun pre => strStarts key pre)).getD FILTER_PRIORITY.length

/-- Stable insertion into an ascending-sorted list (`le x y` puts `x` first,
so earlier elements stay ahead of later equal ones, as in Python's sort). -/
def insLe (le : α → α → Bool) (x : α) : List α → List α
  | [] => [x]
  | y :: ys => if le x y then x :: y :: ys else y :: insLe le x ys

/-- Stable sort (Python's `list.sort` is stable). -/
def stableSort (le : α → α → Bool) : List α → List α
  | [] => []
  | x :: xs => insLe le x (stableSort le xs)

/-- Whether one element passes every post-filter condition: the
priority-sorted plain property conditions first, then the advanced
(relational / positional) conditions — exactly the two inner loops of
`_apply_filters`, whose early `break` agrees with `List.all`'s
short-circuit because the checks are pure in this model. -/
def elemMatches (checkC : α → String → PVal → Bool) (checkA : α → String → PVal → Bool)
    (sortedProp advanced : List (String × PVal)) (e : α) : Bool :=
  sortedProp.all (fun kv => checkC e kv.1 kv.2) && advanced.all (fun kv => checkA e kv.1 kv.2)

/-- The timeout guard at the top of the per-element loop:
`if timeout and time.perf_counter() - start_time > timeout` — a `None` or `0`
timeout disables the check (Python truthiness). -/
def filterTimedOut (timeout : Option ℚ) (elapsed : ℚ) : Bool :=
  match timeout with
  | none => false
  | some tmo => decide (tmo ≠ 0) && decide (elapsed > tmo)

/-- The per-element loop of `_apply_filters`: each candidate is paired with
the elapsed time at which its iteration starts; on timeout the loop returns
the elements accumulated so far. -/
def applyFiltersLoop (checkC checkA : α → String → PVal → Bool)
    (sortedProp advanced : List (String × PVal)) (timeout : Option ℚ) :
    List (α × ℚ) → List α
  | [] => []
  | (e, t) :: rest =>
    if filterTimedOut timeout t then []
    else if elemMatches checkC checkA sortedProp advanced e then
      e :: applyFiltersLoop checkC checkA sortedProp advanced timeout rest
    else applyFiltersLoop checkC checkA sortedProp advanced timeout rest

/-- `_apply_filters`: split the spec into advanced and plain property
conditions, sort the plain ones by `get_priority` (stable, as Python's
`sorted`), then run the per-element loop. -/
def applyFilters (checkC checkA : α → String → PVal → Bool)
    (spec : List (String × PVal)) (timeout : Option ℚ) (items : List (α × ℚ)) : List α :=
  if spec = [] then items.map Prod.fst
  else
    let advanced := spec.filter (fun kv => kv.1 ∈ ADVANCED_SEARCH_KEYS)
    let propSpec := spec.filter (fun kv => kv.1 ∉ ADVANCED_SEARCH_KEYS)
    let sortedProp := stableSort (fun a b => getPriority a.1 ≤ getPriority b.1) propSpec
    applyFiltersLoop checkC checkA sortedProp advanced timeout items

/-! ## `ElementFinder._apply_selectors` / `_get_sort_key_function`
(core_logic.py lines 596–660)

Elements are generic; `getp` is `get_property_value` restricted to the
element type at hand (the sort-key functions read properties through it). -/

/-- `datetime.min.strftime('%Y-%m-%d %H:%M:%S')`, the fallback creation time. -/
def datetimeMinStr : String := "0001-01-01 00:00:00"

/-- Python `value or default` (truthiness-based fallback) applied to an
optional property read, as in `get_property_value(e, k) or default`. -/
def pyOrDefault (v : PVal) (d : PVal) : PVal :=
  if pyTruthy v then v else d

/-- Python `len` on the values the length-based sort key meets (a string
title); other kinds would raise in the source and are unreached. -/
def pvLen : PVal → ℕ
  | .s t => t.data.length
  | .strList xs => xs.length
  | _ => 0

/-- Reading one coordinate/size out of the `geo_bounding_rect_tuple` property
(`get_rect_prop` inside `_get_sort_key_function`): a missing / falsy rect
yields 0; the tuple is `(left, top, right, bottom)`. -/
def rectPropVal (rect : PVal) (key : String) : PVal :=
  if !(pyTruthy rect) then .i 0
  else
    match rect with
    | .quad (.i l) (.i t) (.i r) (.i b) =>
      if key = "sort_by_y_pos" then .i t
      else if key = "sort_by_x_pos" then .i l
      else if key = "sort_by_width" then .i (r - l)
      else if key = "sort_by_height" then .i (b - t)
      else .none_
    | _ => .i 0

/-- `_get_sort_key_function`: the per-key sort key, or `none` for keys with no
sort function. -/
def getSortKeyFun {α : Type _} (getp : α → String → PVal) (key : String) :
    Option (α → PVal) :=
  if key = "sort_by_creation_time" then
    some (fun e => pyOrDefault (getp e "proc_create_time") (.s datetimeMinStr))
  else if key = "sort_by_title_length" then
    some (fun e => .i (pvLen (pyOrDefault (getp e "pwa_title") (.s ""))))
  else if key = "sort_by_child_count" then
    some (fun e => pyOrDefault (getp e "rel_child_count") (.i 0))
  else if key ∈ ["sort_by_y_pos", "sort_by_x_pos", "sort_by_width", "sort_by_height"] then
    some (fun e => rectPropVal (getp e "geo_bounding_rect_tuple") key)
  else none

/-- Ordering used when sorting by a key value: numeric kinds numerically,
strings lexicographically (timestamps compare as strings in the source);
mixed kinds would raise in Python and are unreached by the claims. -/
def pyLe : PVal → PVal → Bool
  | .s a, .s b => decide (a ≤ b)
  | x, y =>
    match pyNumOfVal x, pyNumOfVal y with
    | some p, some q => decide (p ≤ q)
    | _, _ => true

/-- `_apply_selectors`: empty candidates short-circuit to `[]`; a present
`sort_by_scan_order` picks directly from the filtered order (1-based for
positive indices, Python negative indexing otherwise) and ignores every other
selector; otherwise each selector key in declaration order sorts the list
(stable, descending iff its value is negative) and the final index is
`z_order_index` if present, else the last declared selector's value
(1-based-adjusted); an out-of-range index (`IndexError`) yields `[]`. -/
def applySelectors (getp : α → String → PVal) (candidates : List α)
    (selectors : List (String × Int)) : List α :=
  if candidates.isEmpty then []
  else
    match selectors.lookup "sort_by_scan_order" with
    | some index =>
      let finalIndex : Int := if index > 0 then index - 1 else index
      match pyGetIdx candidates finalIndex with
      | some sel => [sel]
      | none => []
    | none =>
      let sortedCandidates :=
        (selectors.filter (fun kv => kv.1 ≠ "z_order_index")).foldl
          (fun acc kv =>
            match getSortKeyFun getp kv.1 with
            | some keyf =>
              if kv.2 < 0 then stableSort (fun a b => pyLe (keyf b) (keyf a)) acc
              else stableSort (fun a b => pyLe (keyf a) (keyf b)) acc
            | none => acc)
          candidates
      let finalIndex : Int :=
        match selectors.lookup "z_order_index" with
        | some z => z
        | none =>
          match selectors.getLast? with
          | some kv => if kv.2 > 0 then kv.2 - 1 else kv.2
          | none => 0
      match pyGetIdx sortedCandidates finalIndex with
      | some sel => [sel]
      | none => []

/-! ## `get_property_value` (core_logic.py lines 259–338)

The element handle is an oracle of fallible platform calls: `call op` models
one low-level pywinauto / Win32 / COM invocation (`Except.error` = the call
raised, as a stale element's calls do).  `get_property_value` wraps the whole
dispatch in `try/except` and returns `None` on any error.  The `rel_level`
tree-walker loop is abstracted as the single platform computation
`call "rel_level_walk"`; `procInfo` models `get_process_info(pid).get(prop)`.
-/

/-- An element handle: fallible platform calls plus the availability flags the
source tests (`com_element`, `tree_walker`/`uia_instance`,
`hasattr(element, 'labeled_by')`). -/
structure RawElem where
  call : String → Except String PVal
  comAvailable : Bool
  walkerAvailable : Bool
  hasLabeledBy : Bool
  procInfo : String → PVal

/-- Midpoint of a rectangle (`rect.mid_point()`; the COM fallback computes
`(left + right) // 2` which agrees on integers). -/
def rectMid (l t r b : Int) : PVal := .pair (.i ((l + r) / 2)) (.i ((t + b) / 2))

/-- The value produced for either geometric property from rect coordinates. -/
def geoValue (prop : String) (l t r b : Int) : PVal :=
  if prop = "geo_bounding_rect_tuple" then .quad (.i l) (.i t) (.i r) (.i b)
  else rectMid l t r b

/-- UIA-pattern branch: `GetCurrentPattern` may raise; a null pattern object
falls through to the final `return None`. -/
def uiaStep (e : RawElem) (prop : String) : Except String PVal :=
  if prop ∈ UIA_PROPS ∧ e.comAvailable then
    if prop = "uia_value" then do
      let p ← e.call "GetCurrentPattern_Value"
      if pyTruthy p then e.call "ValuePattern_CurrentValue" else pure .none_
    else if prop = "uia_toggle_state" then do
      let p ← e.call "GetCurrentPattern_Toggle"
      if pyTruthy p then e.call "TogglePattern_StateName" else pure .none_
    else if prop = "uia_expand_state" then do
      let p ← e.call "GetCurrentPattern_Expand"
      if pyTruthy p then e.call "ExpandPattern_StateName" else pure .none_
    else pure .none_
  else pure .none_

/-- Relation branch: `rel_child_count` returns directly; every other `rel_`
property first calls `element.parent()`; unmatched `rel_` keys (and a
`rel_level` without COM/walker) fall through to the UIA branch. -/
def relStep (e : RawElem) (prop : String) : Except String PVal :=
  if prop ∈ REL_PROPS then
    if prop = "rel_child_count" then e.call "children_len"
    else do
      let parent ← e.call "parent"
      if prop = "rel_parent_title" then
        if pyTruthy parent then e.call "parent_window_text" else pure (.s "")
      else if prop = "rel_labeled_by" then
        if e.hasLabeledBy then e.call "labeled_by" else pure (.s "")
      else if prop = "rel_level" then
        if e.comAvailable ∧ e.walkerAvailable then e.call "rel_level_walk"
        else uiaStep e prop
      else uiaStep e prop
  else uiaStep e prop

/-- Process branch: reads the pid, then `proc_pid` returns it and every other
`proc_` key is looked up in the (cached) process-info dict. -/
def procStep (e : RawElem) (prop : String) : Except String PVal :=
  if prop ∈ PROC_PROPS then do
    let pid ← e.call "process_id"
    if prop = "proc_pid" then pure pid else pure (e.procInfo prop)
  else relStep e prop

/-- Geometry branch with its inner `try/except`: a failing `rectangle()` falls
back to the COM `CurrentBoundingRectangle`, whose own failure returns `None`;
without a COM element control falls past the geo block. -/
def geoStep (e : RawElem) (prop : String) : Except String PVal :=
  if prop ∈ GEO_PROPS then
    match e.call "rectangle" with
    | .ok (.quad (.i l) (.i t) (.i r) (.i b)) => pure (geoValue prop l t r b)
    | _ =>
      if e.comAvailable then
        match e.call "CurrentBoundingRectangle" with
        | .ok (.quad (.i l) (.i t) (.i r) (.i b)) => pure (geoValue prop l t r b)
        | _ => pure .none_
      else procStep e prop
  else procStep e prop

/-- State-flag branch. -/
def stateStep (e : RawElem) (prop : String) : Except String PVal :=
  if prop ∈ STATE_PROPS then
    if prop = "state_is_visible" then e.call "is_visible"
    else if prop = "state_is_enabled" then e.call "is_enabled"
    else if prop = "state_is_active" then e.call "is_active"
    else if prop = "state_is_minimized" then e.call "is_minimized"
    else if prop = "state_is_maximized" then e.call "is_maximized"
    else if prop = "state_is_focusable" then e.call "is_focusable"
    else if prop = "state_is_password" then e.call "is_password"
    else if prop = "state_is_offscreen" then e.call "is_offscreen"
    else if prop = "state_is_content_element" then e.call "is_content_element"
    else if prop = "state_is_control_element" then e.call "is_control_element"
    else geoStep e prop
  else geoStep e prop

/-- The `handle = pwa_element.handle` read (performed for every property that
did not return in the PWA branch) and the Win32 branch guarded by a truthy
handle. -/
def hwStep (e : RawElem) (prop : String) : Except String PVal := do
  let handle ← e.call "handle"
  if pyTruthy handle then
    if prop ∈ WIN32_PROPS then
      if prop = "win32_handle" then pure handle
      else if prop = "win32_styles" then e.call "GetWindowLong_style"
      else if prop = "win32_extended_styles" then e.call "GetWindowLong_exstyle"
      else stateStep e prop
    else if prop = "proc_thread_id" then e.call "GetWindowThreadProcessId"
    else if prop = "rel_parent_handle" then e.call "GetParent"
    else stateStep e prop
  else stateStep e prop

/-- PWA branch: the five native wrapper properties return directly; every
other key (including `pwa_object`) continues to the handle read. -/
def pwaStep (e : RawElem) (prop : String) : Except String PVal :=
  if prop ∈ PWA_PROPS then
    if prop = "pwa_title" then e.call "window_text"
    else if prop = "pwa_class_name" then e.call "class_name"
    else if prop = "pwa_auto_id" then e.call "automation_id"
    else if prop = "pwa_control_type" then e.call "control_type"
    else if prop = "pwa_framework_id" then e.call "framework_id"
    else hwStep e prop
  else hwStep e prop

/-- The outer `try/except` of `get_property_value`: a raised error becomes
`None`, a normal return passes through. -/
def exceptToNull (r : Except String PVal) : PVal :=
  match r with
  | .ok v => v
  | .error _ => .none_

/-- `get_property_value`: lower-case the key, run the dispatch, and map any
raised error to `None` (the outer `except ...: return None`). -/
def get_property_value (e : RawElem) (key : String) : PVal :=
  exceptToNull (pwaStep e (strLower key))

/-! ## `ElementFinder.find` (core_logic.py lines 387–485)

The platform enumeration calls (`root.windows(**kw)`,
`root.descendants(depth=…, **kw)`), the recursive ancestor search and the
advanced-condition anchors are oracles collected in `FindEnv`.  The function
returns both the candidate list and the spec as left after the destructive
`spec.pop('search_max_depth')` / `spec.pop('ancestor')` — the caller's
mapping object. -/

/-- `PYWINAUTO_NATIVE_MAP` from `ElementFinder`. -/
def PYWINAUTO_NATIVE_MAP : List (String × String) :=
  [("pwa_title", "title"), ("pwa_class_name", "class_name"),
   ("pwa_auto_id", "auto_id"), ("pwa_control_type", "control_type")]

/-- Selector values are the ints of the spec language; any other kind would
raise inside `_apply_selectors` and is unreached by the claims. -/
def pvIntOr0 : PVal → Int
  | .i n => n
  | _ => 0

/-- The oracles `find` consumes: enumeration with native kwargs, the
`hasattr(root, 'windows')` test, the recursive ancestor resolution, property
reads, advanced-condition checks, `re.search`, and the elapsed time at which
the filter loop reaches each candidate. -/
structure FindEnv (α : Type) where
  enumTop : α → List (String × PVal) → List α
  enumDesc : α → Option PVal → List (String × PVal) → List α
  isTopLevel : α → Bool
  ancFind : PVal → Option α
  getp : α → String → PVal
  checkAdv : α → String → PVal → Bool
  reMatch : String → String → Bool
  elapsedAt : ℕ → ℚ

/-- One iteration of the native-prefilter partition loop: keys with a native
equivalent are promoted (plain values directly; `equals`/`iequals` operands
directly; `contains`/`icontains`/`regex` as a regex kwarg only for top-level
searches); everything else joins the post-filters.  A 4-tuple criterion would
raise on `op, val = criteria` in the source and is unreached. -/
def nativePartitionStep (isTop : Bool)
    (acc : List (String × PVal) × List (String × PVal)) (kv : String × PVal) :
    List (String × PVal) × List (String × PVal) :=
  let (native, post) := acc
  match PYWINAUTO_NATIVE_MAP.lookup kv.1 with
  | some nk =>
    match kv.2 with
    | .pair o v =>
      if o = .s "equals" ∨ o = .s "iequals" then (native ++ [(nk, v)], post)
      else if (o = .s "contains" ∨ o = .s "icontains" ∨ o = .s "regex") ∧ isTop then
        let rv := if o = .s "regex" then pyStr v else ".*" ++ pyStr v ++ ".*"
        (native ++ [(nk ++ "_re", .s rv)], post)
      else (native, post ++ [kv])
    | .quad _ _ _ _ => (native, post ++ [kv])
    | c => (native ++ [(nk, c)], post)
  | none => (native, post ++ [kv])

/-- `ElementFinder.find`: pop `search_max_depth` (adopting it only when no
`max_depth` argument was given), pop and resolve `ancestor` (empty result if
the ancestor is not found), partition into native prefilter and post-filters,
enumerate (top-level windows or depth-bounded descendants), reverse for a
`backward` direction, post-filter, and apply selectors.  Returns
`(candidates, spec-after-pops)`. -/
def findModel {α : Type} (env : FindEnv α) (root : α) (spec : List (String × PVal))
    (timeout : Option ℚ) (maxDepth : Option PVal) (direction : Option String) :
    List α × List (String × PVal) :=
  let maxDepthUsed :=
    match spec.lookup "search_max_depth", maxDepth with
    | some d, none => some d
    | _, md => md
  let spec1 := eraseKey spec "search_max_depth"
  let ancestorSpec := spec1.lookup "ancestor"
  let spec2 := eraseKey spec1 "ancestor"
  let rootOpt : Option α :=
    match ancestorSpec with
    | some a => if pyTruthy a then env.ancFind a else some root
    | none => some root
  let result :=
    match rootOpt with
    | none => []
    | some root' =>
      let isTop := env.isTopLevel root'
      let (nativeKwargs, postFilters) := spec2.foldl (nativePartitionStep isTop) ([], [])
      let initial :=
        if isTop then env.enumTop root' nativeKwargs
        else env.enumDesc root' maxDepthUsed nativeKwargs
      let initial := if direction = some "backward" then initial.reverse else initial
      let filterSpec := postFilters.filter (fun kv => kv.1 ∉ SORTING_KEYS)
      let selectorSpec := spec2.filter (fun kv => kv.1 ∈ SORTING_KEYS)
      let filtered :=
        if filterSpec ≠ [] then
          applyFilters (fun el k v => evalCriterion env.reMatch (env.getp el k) v)
            env.checkAdv filterSpec timeout
            (initial.enum.map (fun p => (p.2, env.elapsedAt p.1)))
        else initial
      if selectorSpec ≠ [] then
        applySelectors env.getp filtered (selectorSpec.map (fun kv => (kv.1, pvIntOr0 kv.2)))
      else filtered
  (result, spec2)

/-! ## `UIController._find_with_retry` (core_controller.py lines 677–738)

The loop polls a deadline, calls the Finder, and distinguishes one / many /
zero candidates.  Time is explicit: `elapsed` is the wall-clock offset at the
top of an iteration; a scan adds `scanCost k`, the zero-candidate sleep adds
`retryInterval`.  The Finder call is `step k st` where `st` threads the
caller's spec object (mutated by `find`'s pops); the loop is fuel-driven and
additionally reports how many Finder calls were performed.  The
`AutomationState` pause/stop polling is not modelled (state = running). -/

/-- Outcome of a resolution attempt: the raised exceptions are modelled as
error results. -/
inductive RetryResult (α : Type) where
  | found : α → RetryResult α
  | notFoundErr : String → RetryResult α
  | ambiguousErr : ℕ → List String → RetryResult α
  | fuelOut : RetryResult α
  deriving DecidableEq, Repr

/-- The NotFound message: carries the entity name and the spec used
(`f"... Không tìm thấy {entity_name} ... {spec}"`, transliterated). -/
def notFoundMsg (entityName specStr : String) : String :=
  "Het thoi gian cho. Khong tim thay " ++ entityName ++
    " duy nhat phu hop voi bo loc.\n--> Bo loc da su dung: " ++ specStr

/-- The readable identifiers in an Ambiguous message:
`[f"'{c.window_text()}'" for c in candidates[:5]]`. -/
def ambiguousDetails {α : Type} (wtext : α → String) (cs : List α) : List String :=
  (cs.take 5).map (fun c => "'" ++ wtext c ++ "'")

/-- The retry loop body, fuel-driven.  Arguments after the configuration: the
remaining fuel, the iteration index `k`, the elapsed time at the top of the
iteration, and the threaded scan state.  Returns the outcome and the number
of Finder calls performed. -/
def findWithRetryAux {α σ : Type} (wtext : α → String) (specStr entityName : String)
    (timeout retryInterval : ℕ) (step : ℕ → σ → List α × σ) (scanCost : ℕ → ℕ) :
    ℕ → ℕ → ℕ → σ → RetryResult α × ℕ
  | 0, _, _, _ => (.fuelOut, 0)
  | fuel + 1, k, elapsed, st =>
    if timeout ≤ elapsed then (.notFoundErr (notFoundMsg entityName specStr), 0)
    else
      match step k st with
      | ([c], _) => (.found c, 1)
      | ([], st') =>
        let r := findWithRetryAux wtext specStr entityName timeout retryInterval step
          scanCost fuel (k + 1) (elapsed + scanCost k + retryInterval) st'
        (r.1, r.2 + 1)
      | (cs, _) => (.ambiguousErr cs.length (ambiguousDetails wtext cs), 1)

/-- `_find_with_retry` from `start_time`, with fuel `timeout + 1` (sufficient
whenever the retry interval is positive, since every zero-candidate iteration
advances the clock by at least the interval). -/
def findWithRetry {α σ : Type} (wtext : α → String) (specStr entityName : String)
    (timeout retryInterval : ℕ) (step : ℕ → σ → List α × σ) (scanCost : ℕ → ℕ)
    (st : σ) : RetryResult α × ℕ :=
  findWithRetryAux wtext specStr entityName timeout retryInterval step scanCost
    (timeout + 1) 0 0 st

/-! ## `AppManager` lifecycle and caches (app_manager.py)

The state is the pair of caches (`_cached_window`, `_snapshot_cache`); the
environment records the outcomes of the external calls each method makes
(window visibility checks, scans, process operations).  Windows and snapshot
entries are identified by numeric ids. -/

/-- The cache state of an `AppManager`. -/
structure AppState where
  cachedWindow : Option ℕ
  snapshots : List (String × ℕ)
  deriving DecidableEq, Repr

/-- `clear_window_cache`. -/
def clearWindowCache (st : AppState) : AppState := { st with cachedWindow := none }

/-- `clear_all_caches` (window cache + all snapshots). -/
def clearAllCaches (_st : AppState) : AppState := ⟨none, []⟩

/-- Environment of one `get_window` call: whether the cached window's
`is_visible()` raises, what it returns, and what a fresh scan finds. -/
structure GWEnv where
  visRaises : Bool
  cachedVisible : Bool
  scanResult : Option ℕ
  deriving DecidableEq, Repr

/-- The rescue path of `get_window`: scan for the main window and cache it on
success. -/
def getWindowScan (st : AppState) (env : GWEnv) : AppState × Option ℕ :=
  match env.scanResult with
  | some w => ({ st with cachedWindow := some w }, some w)
  | none => (st, none)

/-- `get_window`: return the cached window if it still reports visible; a
raising visibility check clears the window cache first; otherwise re-scan
(caching any hit). -/
def getWindow (st : AppState) (env : GWEnv) : AppState × Option ℕ :=
  match st.cachedWindow with
  | some w =>
    if env.visRaises then getWindowScan (clearWindowCache st) env
    else if env.cachedVisible then (st, some w)
    else getWindowScan st env
  | none => getWindowScan st env

/-- `kill`: clears all caches unconditionally at entry (the process
force-kill that follows does not touch the caches). -/
def killApp (st : AppState) : AppState := clearAllCaches st

/-- Environment of one `launch` call. -/
structure LaunchEnv where
  alreadyRunning : Bool
  popenRaises : Bool
  waitReady : Bool
  gw : GWEnv
  deriving DecidableEq, Repr

/-- `launch`: clears all caches at entry; with `wait_ready` it then probes the
main window through `get_window` (re-populating the window cache on success)
and force-kills on failure. -/
def launchApp (st : AppState) (env : LaunchEnv) : AppState × Bool :=
  let st1 := clearAllCaches st
  if env.alreadyRunning then (st1, true)
  else if env.popenRaises then (st1, false)
  else if env.waitReady then
    let (st2, w) := getWindow st1 env.gw
    match w with
    | some _ => (st2, true)
    | none => (killApp st2, false)
  else (st1, true)

/-- Outcome of the candidate scan and conflict policy inside `attach`. -/
inductive AttachOutcome where
  | alreadyRunning : AttachOutcome
  | errorDuringFind : AttachOutcome
  | noneFoundFail : AttachOutcome
  | noneFoundLaunch : LaunchEnv → AttachOutcome
  | conflictFail : AttachOutcome
  | conflictLaunch : LaunchEnv → AttachOutcome
  | attachTo : ℕ → Bool → AttachOutcome
  deriving DecidableEq, Repr

/-- `attach`: clears all caches at entry; depending on the scan and the
conflict policy it fails, delegates to `launch`, or caches the selected
window (when its process is still alive). -/
def attachApp (st : AppState) (o : AttachOutcome) : AppState × Bool :=
  let st1 := clearAllCaches st
  match o with
  | .alreadyRunning => (st1, true)
  | .errorDuringFind => (st1, false)
  | .noneFoundFail => (st1, false)
  | .noneFoundLaunch le => launchApp st1 le
  | .conflictFail => (st1, false)
  | .conflictLaunch le => launchApp st1 le
  | .attachTo w alive =>
    if alive then ({ st1 with cachedWindow := some w }, true) else (st1, false)

/-- Environment of one `close` call. -/
structure CloseEnv where
  gw : GWEnv
  closeRaises : Bool
  closes : Bool
  deriving DecidableEq, Repr

/-- `close`: find the window (through `get_window`); without one, report
success with the caches untouched; with one, a raising `window.close()` keeps
the caches, a window observed to disappear clears them, and a window that
stays visible is handed to `kill` (which clears them). -/
def closeApp (st : AppState) (env : CloseEnv) : AppState × Bool :=
  let (st1, w) := getWindow st env.gw
  match w with
  | some _ =>
    if env.closeRaises then (st1, false)
    else if env.closes then (clearAllCaches st1, true)
    else (killApp st1, false)
  | none => (st1, true)

/-! ## Theorems -/

/-- C5: for every candidate element and resolved anchor element, `to_right_of`
holds iff the candidate's left edge is at or beyond the anchor's right edge
and the vertical ranges strictly overlap; `to_left_of`, `below` and `above`
are the symmetric conditions with the perpendicular-axis overlap on the other
axis; the concrete rects from the spec behave as stated (anchor
`(0,0,100,100)`: candidate `(150,0,250,100)` is `to_right_of`, candidate
`(150,200,250,300)` is not). -/
theorem positional_predicates_offset_and_overlap :
    (∀ e a : Rect, checkPositional "to_right_of" e a = true ↔
        (a.right ≤ e.left ∧ max e.top a.top < min e.bottom a.bottom))
    ∧ (∀ e a : Rect, checkPositional "to_left_of" e a = true ↔
        (e.right ≤ a.left ∧ max e.top a.top < min e.bottom a.bottom))
    ∧ (∀ e a : Rect, checkPositional "below" e a = true ↔
        (a.bottom ≤ e.top ∧ max e.left a.left < min e.right a.right))
    ∧ (∀ e a : Rect, checkPositional "above" e a = true ↔
        (e.bottom ≤ a.top ∧ max e.left a.left < min e.right a.right))
    ∧ checkPositional "to_right_of" ⟨150, 0, 250, 100⟩ ⟨0, 0, 100, 100⟩ = true
    ∧ checkPositional "to_right_of" ⟨150, 200, 250, 300⟩ ⟨0, 0, 100, 100⟩ = false := by
  have h1 : ∀ e a : Rect, checkPositional "to_right_of" e a
      = (decide (e.left ≥ a.right) && decide (vOverlap e a > 0)) := fun _ _ => rfl
  have h2 : ∀ e a : Rect, checkPositional "to_left_of" e a
      = (decide (e.right ≤ a.left) && decide (vOverlap e a > 0)) := fun _ _ => rfl
  have h3 : ∀ e a : Rect, checkPositional "below" e a
      = (decide (e.top ≥ a.bottom) && decide (hOverlap e a > 0)) := fun _ _ => rfl
  have h4 : ∀ e a : Rect, checkPositional "above" e a
      = (decide (e.bottom ≤ a.top) && decide (hOverlap e a > 0)) := fun _ _ => rfl
  refine ⟨fun e a => ?_, fun e a => ?_, fun e a => ?_, fun e a => ?_, by decide, by decide⟩
  · rw [h1]; simp only [vOverlap, Bool.and_eq_true, decide_eq_true_eq]; omega
  · rw [h2]; simp only [vOverlap, Bool.and_eq_true, decide_eq_true_eq]; omega
  · rw [h3]; simp only [hOverlap, Bool.and_eq_true, decide_eq_true_eq]; omega
  · rw [h4]; simp only [hOverlap, Bool.and_eq_true, decide_eq_true_eq]; omega

/-- Unfolding `_check_condition` for an `('equals', t)` criterion on a
non-null value. -/
lemma evalCriterion_equals (rm : String → String → Bool) (a t : PVal)
    (ha : a ≠ .none_) :
    evalCriterion rm a (.pair (.s "equals") t) = (pyStr a == pyStr t) := by
  have hlow : strLower (pyStr (PVal.s "equals")) = "equals" := by decide
  simp only [evalCriterion, hlow]
  rw [if_pos (show isOperatorSyntax (.pair (.s "equals") t) = true from rfl)]
  rw [if_neg ha]
  rw [if_pos (by decide : ("equals" : String) ∈ STRING_OPERATORS)]
  simp

/-- Unfolding `_check_condition` for an `('icontains', t)` criterion on a
non-null value. -/
lemma evalCriterion_icontains (rm : String → String → Bool) (a t : PVal)
    (ha : a ≠ .none_) :
    evalCriterion rm a (.pair (.s "icontains") t)
      = strContainsSub (strLower (pyStr a)) (strLower (pyStr t)) := by
  have hlow : strLower (pyStr (PVal.s "icontains")) = "icontains" := by decide
  simp only [evalCriterion, hlow]
  rw [if_pos (show isOperatorSyntax (.pair (.s "icontains") t) = true from rfl)]
  rw [if_neg ha]
  rw [if_pos (by decide : ("icontains" : String) ∈ STRING_OPERATORS)]
  simp

/-- Unfolding `_check_condition` for a `('not_contains', t)` criterion on a
non-null value. -/
lemma evalCriterion_not_contains (rm : String → String → Bool) (a t : PVal)
    (ha : a ≠ .none_) :
    evalCriterion rm a (.pair (.s "not_contains") t)
      = !strContainsSub (pyStr a) (pyStr t) := by
  have hlow : strLower (pyStr (PVal.s "not_contains")) = "not_contains" := by decide
  simp only [evalCriterion, hlow]
  rw [if_pos (show isOperatorSyntax (.pair (.s "not_contains") t) = true from rfl)]
  rw [if_neg ha]
  rw [if_pos (by decide : ("not_contains" : String) ∈ STRING_OPERATORS)]
  simp

/-- With a null property value, every operator-syntax criterion evaluates to
`False` (`if actual_value is None: return False`). -/
lemma evalCriterion_null_operator (rm : String → String → Bool) (c : PVal)
    (h : isOperatorSyntax c = true) : evalCriterion rm .none_ c = false := by
  cases c
  case pair o t => simp only [evalCriterion, h, if_true]
  all_goals exact absurd h (by simp [isOperatorSyntax])

/-- A criterion that is not operator syntax is compared with Python `==`. -/
lemma evalCriterion_literal (rm : String → String → Bool) (a c : PVal)
    (h : isOperatorSyntax c = false) : evalCriterion rm a c = pyEq a c := by
  simp only [evalCriterion, h, Bool.false_eq_true, if_false]

/-- Unfolding `_check_condition` for a numeric-operator criterion: both sides
through `float(.)`, `False` on coercion failure (and on a null value). -/
lemma evalCriterion_numeric (rm : String → String → Bool) (a t : PVal)
    (op : String) (hop : op ∈ NUMERIC_OPERATORS) :
    evalCriterion rm a (.pair (.s op) t)
      = (match pyFloat a, pyFloat t with
         | some x, some y =>
           if op = ">" then decide (x > y)
           else if op = ">=" then decide (x ≥ y)
           else if op = "<" then decide (x < y)
           else if op = "<=" then decide (x ≤ y)
           else false
         | _, _ => false) := by
  have h4 : op = ">" ∨ op = ">=" ∨ op = "<" ∨ op = "<=" := by
    simpa [NUMERIC_OPERATORS] using hop
  by_cases ha : a = .none_
  · subst ha
    rcases h4 with rfl | rfl | rfl | rfl <;>
      [rw [evalCriterion_null_operator rm _ (show isOperatorSyntax (.pair (.s ">") t) = true from rfl)];
       rw [evalCriterion_null_operator rm _ (show isOperatorSyntax (.pair (.s ">=") t) = true from rfl)];
       rw [evalCriterion_null_operator rm _ (show isOperatorSyntax (.pair (.s "<") t) = true from rfl)];
       rw [evalCriterion_null_operator rm _ (show isOperatorSyntax (.pair (.s "<=") t) = true from rfl)]]
    all_goals simp [pyFloat]
  · rcases h4 with rfl | rfl | rfl | rfl
    · have hlow : strLower (pyStr (PVal.s ">")) = ">" := by decide
      simp only [evalCriterion, hlow]
      rw [if_pos (show isOperatorSyntax (.pair (.s ">") t) = true from rfl)]
      rw [if_neg ha]
      rw [if_neg (by decide : ¬ ((">" : String) ∈ STRING_OPERATORS))]
      rw [if_pos (by decide : (">" : String) ∈ NUMERIC_OPERATORS)]
    · have hlow : strLower (pyStr (PVal.s ">=")) = ">=" := by decide
      simp only [evalCriterion, hlow]
      rw [if_pos (show isOperatorSyntax (.pair (.s ">=") t) = true from rfl)]
      rw [if_neg ha]
      rw [if_neg (by decide : ¬ ((">=" : String) ∈ STRING_OPERATORS))]
      rw [if_pos (by decide : (">=" : String) ∈ NUMERIC_OPERATORS)]
    · have hlow : strLower (pyStr (PVal.s "<")) = "<" := by decide
      simp only [evalCriterion, hlow]
      rw [if_pos (show isOperatorSyntax (.pair (.s "<") t) = true from rfl)]
      rw [if_neg ha]
      rw [if_neg (by decide : ¬ (("<" : String) ∈ STRING_OPERATORS))]
      rw [if_pos (by decide : ("<" : String) ∈ NUMERIC_OPERATORS)]
    · have hlow : strLower (pyStr (PVal.s "<=")) = "<=" := by decide
      simp only [evalCriterion, hlow]
      rw [if_pos (show isOperatorSyntax (.pair (.s "<=") t) = true from rfl)]
      rw [if_neg ha]
      rw [if_neg (by decide : ¬ (("<=" : String) ∈ STRING_OPERATORS))]
      rw [if_pos (by decide : ("<=" : String) ∈ NUMERIC_OPERATORS)]

/-- C3: string operators compare `str(actual)` against `str(operand)` —
`equals` case-sensitively (so `"Save File"` does not match
`('equals', 'save file')`), `icontains` case-insensitively (so `"Save File"`
matches `('icontains', 'save')`), and `('not_contains', 'Open')` matches
`"Save File"` — while the numeric operators `>`, `>=`, `<`, `<=` coerce both
operands to float and yield `False` (not an error) when either side does not
coerce. -/
theorem check_condition_operator_semantics :
    (∀ rm : String → String → Bool, ∀ a t : PVal, a ≠ .none_ →
        evalCriterion rm a (.pair (.s "equals") t) = (pyStr a == pyStr t)
        ∧ evalCriterion rm a (.pair (.s "icontains") t)
            = strContainsSub (strLower (pyStr a)) (strLower (pyStr t))
        ∧ evalCriterion rm a (.pair (.s "not_contains") t)
            = !strContainsSub (pyStr a) (pyStr t))
    ∧ evalCriterion (fun _ _ => false) (.s "Save File")
        (.pair (.s "icontains") (.s "save")) = true
    ∧ evalCriterion (fun _ _ => false) (.s "Save File")
        (.pair (.s "equals") (.s "save file")) = false
    ∧ evalCriterion (fun _ _ => false) (.s "Save File")
        (.pair (.s "not_contains") (.s "Open")) = true
    ∧ (∀ rm : String → String → Bool, ∀ a t : PVal, ∀ x y : ℚ, ∀ op ∈ NUMERIC_OPERATORS,
        pyFloat a = some x → pyFloat t = some y →
        evalCriterion rm a (.pair (.s op) t)
          = (if op = ">" then decide (x > y)
             else if op = ">=" then decide (x ≥ y)
             else if op = "<" then decide (x < y)
             else decide (x ≤ y)))
    ∧ (∀ rm : String → String → Bool, ∀ a t : PVal, ∀ op ∈ NUMERIC_OPERATORS,
        pyFloat a = none ∨ pyFloat t = none →
        evalCriterion rm a (.pair (.s op) t) = false) := by
  refine ⟨fun rm a t ha => ⟨evalCriterion_equals rm a t ha,
      evalCriterion_icontains rm a t ha, evalCriterion_not_contains rm a t ha⟩,
    by decide, by decide, by decide, ?_, ?_⟩
  · intro rm a t x y op hop hx hy
    rw [evalCriterion_numeric rm a t op hop, hx, hy]
    have h4 : op = ">" ∨ op = ">=" ∨ op = "<" ∨ op = "<=" := by
      simpa [NUMERIC_OPERATORS] using hop
    rcases h4 with rfl | rfl | rfl | rfl <;> simp
  · intro rm a t op hop hnone
    rw [evalCriterion_numeric rm a t op hop]
    rcases hnone with h | h
    · rw [h]
    · rw [h]
      rcases hg : pyFloat a with _ | p <;> simp [hg]

/-- Witness for C3 at concrete inputs: `30.0 > 25.0` holds numerically and a
non-coercible string operand makes the numeric comparison `False`. -/
theorem check_condition_operator_semantics_witness :
    evalCriterion (fun _ _ => false) (.f 30) (.pair (.s ">") (.f 25)) = true
    ∧ evalCriterion (fun _ _ => false) (.s "abc") (.pair (.s ">") (.i 5)) = false := by
  constructor
  · rw [check_condition_operator_semantics.2.2.2.2.1 (fun _ _ => false) (.f 30)
      (.f 25) 30 25 ">" (by decide) rfl rfl]
    decide
  · exact check_condition_operator_semantics.2.2.2.2.2 (fun _ _ => false) (.s "abc")
      (.i 5) ">" (by decide) (Or.inl (by decide))

/-- C10: a null property value makes every operator-syntax criterion false —
including the negated operators `not_equals`, `not_iequals`, `not_contains`,
`not_icontains` — while a plain literal criterion is compared with `==`, so a
literal `None` criterion matches a null property value. -/
theorem null_property_value_condition_semantics :
    (∀ rm : String → String → Bool, ∀ c : PVal, isOperatorSyntax c = true →
        evalCriterion rm .none_ c = false)
    ∧ (∀ rm : String → String → Bool, ∀ t : PVal,
        evalCriterion rm .none_ (.pair (.s "not_equals") t) = false
        ∧ evalCriterion rm .none_ (.pair (.s "not_iequals") t) = false
        ∧ evalCriterion rm .none_ (.pair (.s "not_contains") t) = false
        ∧ evalCriterion rm .none_ (.pair (.s "not_icontains") t) = false)
    ∧ (∀ rm : String → String → Bool, ∀ c : PVal, isOperatorSyntax c = false →
        evalCriterion rm .none_ c = pyEq .none_ c)
    ∧ (∀ rm : String → String → Bool, evalCriterion rm .none_ .none_ = true) := by
  refine ⟨evalCriterion_null_operator, ?_, fun rm c h => evalCriterion_literal rm _ c h,
    fun rm => ?_⟩
  · intro rm t
    exact ⟨evalCriterion_null_operator rm _ rfl, evalCriterion_null_operator rm _ rfl,
      evalCriterion_null_operator rm _ rfl, evalCriterion_null_operator rm _ rfl⟩
  · rw [evalCriterion_literal rm PVal.none_ PVal.none_ (by decide)]; rfl

/-- Witness for C10 at a concrete input: a null value fails an
`('iequals', 'x')` criterion. -/
theorem null_property_value_condition_semantics_witness :
    evalCriterion (fun _ _ => false) .none_ (.pair (.s "iequals") (.s "x")) = false :=
  null_property_value_condition_semantics.1 (fun _ _ => false)
    (.pair (.s "iequals") (.s "x")) (by decide)

/-- The element at index `length - 1` is the last element. -/
lemma get_length_sub_one_eq_getLast {α : Type} (l : List α) :
    l.get? (l.length - 1) = l.getLast? := by
  induction l with
  | nil => rfl
  | cons x xs ih =>
    cases xs with
    | nil => rfl
    | cons y ys =>
      rw [List.getLast?_cons_cons]
      simpa using ih

/-- C2: when `sort_by_scan_order` is present with value `n`, the selector
stage picks directly from the filtered (pre-sort) candidate order and ignores
every other selector key (the right-hand sides below do not mention the other
selectors): `n ≥ 1` picks the element at 1-based position `n`, a negative `n`
picks from the end (`-1` = the last element), and an out-of-range `n` (e.g.
`5` on a 3-element list) yields `[]` rather than an exception. -/
theorem scan_order_selector {α : Type} (getp : α → String → PVal)
    (cands : List α) (selectors : List (String × Int)) (n : Int)
    (h : selectors.lookup "sort_by_scan_order" = some n) :
    (1 ≤ n → applySelectors getp cands selectors = (cands.get? (n.toNat - 1)).toList)
    ∧ (n < 0 → applySelectors getp cands selectors =
        (if 0 ≤ (cands.length : Int) + n
         then (cands.get? ((cands.length : Int) + n).toNat).toList else []))
    ∧ (n = -1 → applySelectors getp cands selectors = cands.getLast?.toList)
    ∧ (1 ≤ n → cands.length < n.toNat → applySelectors getp cands selectors = []) := by
  have key : applySelectors getp cands selectors
      = if cands.isEmpty then []
        else
          match pyGetIdx cands (if n > 0 then n - 1 else n) with
          | some sel => [sel]
          | none => [] := by
    simp only [applySelectors, h]
    rfl
  by_cases hc : cands.isEmpty
  · have hnil : cands = [] := by
      cases cands with
      | nil => rfl
      | cons a l => simp [List.isEmpty] at hc
    subst hnil
    refine ⟨fun _ => ?_, fun h1 => ?_, fun _ => ?_, fun _ _ => ?_⟩ <;>
      simp only [key, if_pos rfl] <;> simp
  · rw [if_neg hc] at key
    have hne : cands ≠ [] := by
      cases cands with
      | nil => simp [List.isEmpty] at hc
      | cons a l => simp
    have hlen : 1 ≤ cands.length := List.length_pos.mpr hne
    refine ⟨fun h1 => ?_, fun h1 => ?_, fun h1 => ?_, fun h1 h2 => ?_⟩
    · rw [key, if_pos (by omega : n > 0)]
      rw [show pyGetIdx cands (n - 1) = cands.get? (n.toNat - 1) by
        simp only [pyGetIdx]
        rw [if_pos (by omega : (0 : Int) ≤ n - 1)]
        congr 1
        omega]
      cases hg : cands.get? (n.toNat - 1) <;> simp
    · rw [key, if_neg (by omega : ¬ n > 0)]
      simp only [pyGetIdx, if_neg (by omega : ¬ (0 : Int) ≤ n)]
      by_cases hin : (0 : Int) ≤ (cands.length : Int) + n
      · rw [if_pos hin, if_pos hin]
        cases hg : cands.get? ((cands.length : Int) + n).toNat <;> simp
      · rw [if_neg hin, if_neg hin]
    · subst h1
      rw [key, if_neg (by omega : ¬ (-1 : Int) > 0)]
      simp only [pyGetIdx, if_neg (by omega : ¬ (0 : Int) ≤ -1)]
      rw [if_pos (by omega : (0 : Int) ≤ (cands.length : Int) + -1)]
      rw [show ((cands.length : Int) + -1).toNat = cands.length - 1 by omega]
      rw [get_length_sub_one_eq_getLast]
      cases hg : cands.getLast? <;> simp
    · rw [key, if_pos (by omega : n > 0)]
      rw [show pyGetIdx cands (n - 1) = cands.get? (n.toNat - 1) by
        simp only [pyGetIdx]
        rw [if_pos (by omega : (0 : Int) ≤ n - 1)]
        congr 1
        omega]
      rw [List.get?_eq_none.mpr (by omega : cands.length ≤ n.toNat - 1)]

/-- Witness for C2 on the 3-element list `[10, 20, 30]`: scan-order 2 picks
the second element, scan-order -1 the last, scan-order 5 is out of range. -/
theorem scan_order_selector_witness :
    applySelectors (fun (_ : ℕ) _ => PVal.none_) [10, 20, 30]
        [("sort_by_scan_order", 2), ("sort_by_y_pos", 1)] = [20]
    ∧ applySelectors (fun (_ : ℕ) _ => PVal.none_) [10, 20, 30]
        [("sort_by_scan_order", -1)] = [30]
    ∧ applySelectors (fun (_ : ℕ) _ => PVal.none_) [10, 20, 30]
        [("sort_by_scan_order", 5)] = [] := by
  refine ⟨?_, ?_, ?_⟩
  · rw [(scan_order_selector (fun (_ : ℕ) _ => PVal.none_) [10, 20, 30]
      [("sort_by_scan_order", 2), ("sort_by_y_pos", 1)] 2 (by decide)).1 (by decide)]
    rfl
  · rw [(scan_order_selector (fun (_ : ℕ) _ => PVal.none_) [10, 20, 30]
      [("sort_by_scan_order", -1)] (-1) (by decide)).2.2.1 rfl]
    rfl
  · exact (scan_order_selector (fun (_ : ℕ) _ => PVal.none_) [10, 20, 30]
      [("sort_by_scan_order", 5)] 5 (by decide)).2.2.2 (by decide) (by decide)

/-- When no element's iteration hits the timeout, the filter loop keeps
exactly the elements that pass every condition. -/
lemma applyFiltersLoop_no_timeout {α : Type} (cc ca : α → String → PVal → Bool)
    (sp adv : List (String × PVal)) (tmo : Option ℚ) (items : List (α × ℚ))
    (h : ∀ p ∈ items, filterTimedOut tmo p.2 = false) :
    applyFiltersLoop cc ca sp adv tmo items
      = (items.filter (fun p => elemMatches cc ca sp adv p.1)).map Prod.fst := by
  induction items with
  | nil => rfl
  | cons p rest ih =>
    obtain ⟨e, t⟩ := p
    have hnt : filterTimedOut tmo t = false := h ⟨e, t⟩ (by simp)
    simp only [applyFiltersLoop, hnt, Bool.false_eq_true, if_false]
    rw [ih (fun q hq => h q (List.mem_cons_of_mem _ hq))]
    by_cases hm : elemMatches cc ca sp adv e = true
    · rw [if_pos hm]
      simp [List.filter_cons, hm]
    · rw [if_neg hm]
      simp only [Bool.not_eq_true] at hm
      simp [List.filter_cons, hm]

/-- The filter loop stops at the first element whose iteration starts past
the deadline: the suffix from that element on is dropped. -/
lemma applyFiltersLoop_timeout_abort {α : Type} (cc ca : α → String → PVal → Bool)
    (sp adv : List (String × PVal)) (tmo : Option ℚ) (pre : List (α × ℚ))
    (e : α) (t : ℚ) (post : List (α × ℚ))
    (hpre : ∀ p ∈ pre, filterTimedOut tmo p.2 = false)
    (ht : filterTimedOut tmo t = true) :
    applyFiltersLoop cc ca sp adv tmo (pre ++ (e, t) :: post)
      = applyFiltersLoop cc ca sp adv tmo pre := by
  induction pre with
  | nil =>
    simp only [List.nil_append, applyFiltersLoop, ht, if_true]
  | cons p rest ih =>
    obtain ⟨e', t'⟩ := p
    have hnt : filterTimedOut tmo t' = false := hpre ⟨e', t'⟩ (by simp)
    have ih' := ih (fun q hq => hpre q (List.mem_cons_of_mem _ hq))
    simp only [List.cons_append, applyFiltersLoop, hnt, Bool.false_eq_true, if_false,
      List.append_eq]
    by_cases hm : elemMatches cc ca sp adv e' = true
    · rw [if_pos hm, if_pos hm, ih']
    · rw [if_neg hm, if_neg hm, ih']

/-- C6: when `ElementFinder.find` hands `_apply_filters` a (positive) timeout
budget and the elapsed time exceeds it at some element of the candidate list,
the filtering loop aborts there and returns — without raising — exactly the
prefix elements that had already passed every filter condition.  (A `None` or
`0` budget disables the guard: Python truthiness of `timeout`.) -/
theorem post_filter_timeout_partial {α : Type} (checkC checkA : α → String → PVal → Bool)
    (spec : List (String × PVal)) (tmo : ℚ) (pre post : List (α × ℚ)) (e : α) (t : ℚ)
    (hspec : spec ≠ []) (htmo : 0 < tmo) (hpre : ∀ p ∈ pre, p.2 ≤ tmo) (ht : tmo < t) :
    applyFilters checkC checkA spec (some tmo) (pre ++ (e, t) :: post)
      = applyFilters checkC checkA spec (some tmo) pre
    ∧ applyFilters checkC checkA spec (some tmo) pre
      = (pre.filter (fun p => elemMatches checkC checkA
            (stableSort (fun x y => getPriority x.1 ≤ getPriority y.1)
              (spec.filter (fun kv => kv.1 ∉ ADVANCED_SEARCH_KEYS)))
            (spec.filter (fun kv => kv.1 ∈ ADVANCED_SEARCH_KEYS)) p.1)).map Prod.fst := by
  have hnt : ∀ p ∈ pre, filterTimedOut (some tmo) p.2 = false := by
    intro p hp
    have := hpre p hp
    simp only [filterTimedOut, Bool.and_eq_false_iff, decide_eq_false_iff_not, not_lt]
    right
    linarith
  have hto : filterTimedOut (some tmo) t = true := by
    simp only [filterTimedOut, Bool.and_eq_true, decide_eq_true_eq]
    exact ⟨by linarith, ht⟩
  constructor
  · simp only [applyFilters, if_neg hspec]
    exact applyFiltersLoop_timeout_abort _ _ _ _ _ _ _ _ _ hnt hto
  · simp only [applyFilters, if_neg hspec]
    exact applyFiltersLoop_no_timeout _ _ _ _ _ _ hnt

/-- Witness for C6: with budget 2, the loop reaches the third candidate at
elapsed time 3, aborts, and returns only the matching earlier elements. -/
theorem post_filter_timeout_partial_witness :
    applyFilters (fun (el : ℕ) _ _ => decide (el ≠ 20)) (fun _ _ _ => true)
        [("pwa_title", .s "x")] (some 2) [(10, 0), (20, 1), (30, 3), (40, 4)]
      = [10]
    ∧ applyFilters (fun (el : ℕ) _ _ => decide (el ≠ 20)) (fun _ _ _ => true)
        [("pwa_title", .s "x")] (some 2) [(10, 0), (20, 1)]
      = [10] := by
  have h := post_filter_timeout_partial (fun (el : ℕ) _ _ => decide (el ≠ 20))
    (fun _ _ _ => true) [("pwa_title", .s "x")] 2 [(10, 0), (20, 1)] [(40, 4)] 30 3
    (by decide) (by norm_num)
    (by
      intro p hp
      simp only [List.mem_cons, List.not_mem_nil, or_false] at hp
      rcases hp with rfl | rfl <;> norm_num)
    (by norm_num)
  refine ⟨?_, ?_⟩
  · rw [show ([(10, 0), (20, 1), (30, 3), (40, 4)] : List (ℕ × ℚ))
        = [(10, 0), (20, 1)] ++ (30, 3) :: [(40, 4)] from rfl]
    rw [h.1, h.2]
    decide
  · rw [h.2]
    decide

/-- If every Finder scan returns no candidate and the clock advances at least
`retryInterval` per iteration, the loop ends in NotFound once enough time has
passed. -/
lemma findWithRetryAux_all_empty {α σ : Type} (wtext : α → String)
    (specStr entityName : String) (timeout retryInterval : ℕ)
    (step : ℕ → σ → List α × σ) (scanCost : ℕ → ℕ)
    (hempty : ∀ k st, (step k st).1 = []) :
    ∀ fuel k elapsed st, timeout ≤ elapsed + fuel * retryInterval →
      (findWithRetryAux wtext specStr entityName timeout retryInterval step scanCost
          (fuel + 1) k elapsed st).1
        = .notFoundErr (notFoundMsg entityName specStr) := by
  intro fuel
  induction fuel with
  | zero =>
    intro k elapsed st hle
    simp only [Nat.zero_mul, Nat.add_zero] at hle
    simp only [findWithRetryAux, if_pos hle]
  | succ m ih =>
    intro k elapsed st hle
    by_cases hel : timeout ≤ elapsed
    · simp only [findWithRetryAux, if_pos hel]
    · rw [findWithRetryAux, if_neg hel]
      rcases hstep : step k st with ⟨cs, st'⟩
      have hcs : cs = [] := by
        have := hempty k st
        rw [hstep] at this
        exact this
      subst hcs
      simp only
      exact ih (k + 1) (elapsed + scanCost k + retryInterval) st' (by
        have : elapsed + retryInterval + m * retryInterval
            = elapsed + (m + 1) * retryInterval := by ring
        omega)

/-- C1: on any iteration of `_find_with_retry` that starts before the
deadline — a scan with more than one candidate raises Ambiguous immediately
(one Finder call, no further retry, regardless of the remaining fuel or
timeout) and its message lists at most 5 readable identifiers; a scan with
exactly one candidate returns it; an empty scan recurses after adding the
scan cost and the retry interval to the clock; an iteration starting at or
past the deadline raises NotFound carrying the spec string; and when every
scan is empty and the retry interval is positive, the whole loop ends in that
NotFound. -/
theorem retry_loop_resolution {α σ : Type} (wtext : α → String)
    (specStr entityName : String) (timeout retryInterval : ℕ)
    (step : ℕ → σ → List α × σ) (scanCost : ℕ → ℕ) :
    (∀ fuel k elapsed st, elapsed < timeout → 1 < (step k st).1.length →
        findWithRetryAux wtext specStr entityName timeout retryInterval step scanCost
            (fuel + 1) k elapsed st
          = (.ambiguousErr (step k st).1.length (ambiguousDetails wtext (step k st).1), 1)
        ∧ (ambiguousDetails wtext (step k st).1).length ≤ 5)
    ∧ (∀ fuel k elapsed st c st', elapsed < timeout → step k st = ([c], st') →
        findWithRetryAux wtext specStr entityName timeout retryInterval step scanCost
            (fuel + 1) k elapsed st
          = (.found c, 1))
    ∧ (∀ fuel k elapsed st st', elapsed < timeout → step k st = ([], st') →
        findWithRetryAux wtext specStr entityName timeout retryInterval step scanCost
            (fuel + 1) k elapsed st
          = ((findWithRetryAux wtext specStr entityName timeout retryInterval step scanCost
                fuel (k + 1) (elapsed + scanCost k + retryInterval) st').1,
             (findWithRetryAux wtext specStr entityName timeout retryInterval step scanCost
                fuel (k + 1) (elapsed + scanCost k + retryInterval) st').2 + 1))
    ∧ (∀ fuel k elapsed st, timeout ≤ elapsed →
        findWithRetryAux wtext specStr entityName timeout retryInterval step scanCost
            (fuel + 1) k elapsed st
          = (.notFoundErr (notFoundMsg entityName specStr), 0))
    ∧ ((∀ k st, (step k st).1 = []) → 0 < retryInterval → ∀ st,
        (findWithRetry wtext specStr entityName timeout retryInterval step scanCost st).1
          = .notFoundErr (notFoundMsg entityName specStr)) := by
  refine ⟨?_, ?_, ?_, ?_, ?_⟩
  · intro fuel k elapsed st hel hlen
    have hnle : ¬ timeout ≤ elapsed := by omega
    constructor
    · rw [findWithRetryAux, if_neg hnle]
      rcases hstep : step k st with ⟨cs, st'⟩
      rw [hstep] at hlen
      match cs, hlen with
      | c1 :: c2 :: rest, _ => simp only
    · simp only [ambiguousDetails, List.length_map]
      have := List.length_take_le 5 (step k st).1
      omega
  · intro fuel k elapsed st c st' hel hstep
    have hnle : ¬ timeout ≤ elapsed := by omega
    rw [findWithRetryAux, if_neg hnle, hstep]
  · intro fuel k elapsed st st' hel hstep
    have hnle : ¬ timeout ≤ elapsed := by omega
    rw [findWithRetryAux, if_neg hnle, hstep]
  · intro fuel k elapsed st hle
    rw [findWithRetryAux, if_pos hle]
  · intro hempty hri st
    exact findWithRetryAux_all_empty wtext specStr entityName timeout retryInterval
      step scanCost hempty timeout 0 0 st
      (by
        have : timeout * 1 ≤ timeout * retryInterval := Nat.mul_le_mul_left timeout hri
        omega)

/-- Witness for C1 at concrete inputs: a scan that finds the two windows
`"a"`, `"b"` raises Ambiguous at once with both identifiers listed; a scan
that always finds nothing ends in NotFound carrying the spec string. -/
theorem retry_loop_resolution_witness :
    findWithRetryAux (fun n : ℕ => toString n) "sp" "window" 10 1
        (fun _ (_ : Unit) => ([3, 4], ())) (fun _ => 0) 11 0 0 ()
      = (.ambiguousErr 2 ["'3'", "'4'"], 1)
    ∧ (findWithRetry (fun n : ℕ => toString n) "sp" "window" 3 1
        (fun _ (_ : Unit) => ([], ())) (fun _ => 0) ()).1
      = .notFoundErr (notFoundMsg "window" "sp") := by
  constructor
  · have h := (retry_loop_resolution (fun n : ℕ => toString n) "sp" "window" 10 1
      (fun _ (_ : Unit) => ([3, 4], ())) (fun _ => 0)).1 10 0 0 ()
      (by decide) (by decide)
    rw [h.1]
    rfl
  · exact (retry_loop_resolution (fun n : ℕ => toString n) "sp" "window" 3 1
      (fun _ (_ : Unit) => ([], ())) (fun _ => 0)).2.2.2.2 (fun _ _ => rfl) (by decide) ()

/-- C4 (amended): with both timeout and retry interval zero, `_find_with_retry`
performs no Finder call at all — the remaining-time check at the top of the
first iteration already fails (`remaining_timeout <= 0`), so NotFound is
raised immediately, with no retry sleep. -/
theorem zero_timeout_zero_interval_no_scan {α σ : Type} (wtext : α → String)
    (specStr entityName : String) (step : ℕ → σ → List α × σ) (scanCost : ℕ → ℕ)
    (st : σ) :
    findWithRetry wtext specStr entityName 0 0 step scanCost st
      = (.notFoundErr (notFoundMsg entityName specStr), 0) := by
  rw [findWithRetry, findWithRetryAux, if_pos (Nat.le_refl 0)]

/-- Counterexample to C4 as stated: with timeout and retry interval both zero
and a Finder whose single scan would return the unique candidate `7`, the
controller still performs zero Finder calls and raises NotFound — not the
claimed single scan returning the candidate. -/
theorem zero_timeout_single_scan_counterexample :
    (findWithRetry (fun n : ℕ => toString n) "sp" "element" 0 0
        (fun _ (_ : Unit) => ([7], ())) (fun _ => 0) ()).2 = 0
    ∧ (findWithRetry (fun n : ℕ => toString n) "sp" "element" 0 0
        (fun _ (_ : Unit) => ([7], ())) (fun _ => 0) ()).1
      = .notFoundErr (notFoundMsg "element" "sp") := by
  constructor <;> rfl

/-- `dict.pop` on the popped key: it is gone. -/
lemma lookup_eraseKey_self {β : Type} (l : List (String × β)) (k : String) :
    (eraseKey l k).lookup k = none := by
  induction l with
  | nil => rfl
  | cons kv rest ih =>
    obtain ⟨a, b⟩ := kv
    simp only [eraseKey, List.filter_cons] at ih ⊢
    by_cases hk : a = k
    · rw [if_neg (by simp [hk])]
      exact ih
    · rw [if_pos (by simp [hk])]
      have hbk : (k == a) = false := beq_eq_false_iff_ne.mpr (fun he => hk he.symm)
      simp only [List.lookup, hbk]
      exact ih

/-- `dict.pop` leaves every other key's binding unchanged. -/
lemma lookup_eraseKey_ne {β : Type} (l : List (String × β)) (k k' : String)
    (h : k' ≠ k) : (eraseKey l k).lookup k' = l.lookup k' := by
  induction l with
  | nil => rfl
  | cons kv rest ih =>
    obtain ⟨a, b⟩ := kv
    simp only [eraseKey, List.filter_cons] at ih ⊢
    by_cases hk : a = k
    · have hbk : (k' == a) = false := beq_eq_false_iff_ne.mpr (fun he => h (he.trans hk))
      rw [if_neg (by simp [hk])]
      rw [ih]
      simp only [List.lookup, hbk]
    · rw [if_pos (by simp [hk])]
      simp only [List.lookup]
      cases hbk : (k' == a) <;> simp only [ih]

/-- C9: `ElementFinder.find` mutates the caller's spec mapping — it pops
`ancestor` and `search_max_depth` before searching, leaving every other key
bound as before; consequently a second call on the returned (mutated) mapping
with no explicit depth argument — as `_find_with_retry` does on every retry
iteration — never consults the ancestor-resolution oracle and enumerates
descendants only with an unbounded (`None`) depth. -/
theorem find_pops_spec_keys {α : Type} (env : FindEnv α) (root : α)
    (spec : List (String × PVal)) (timeout : Option ℚ) (maxDepth : Option PVal)
    (direction : Option String) :
    (findModel env root spec timeout maxDepth direction).2
      = eraseKey (eraseKey spec "search_max_depth") "ancestor"
    ∧ ((findModel env root spec timeout maxDepth direction).2).lookup "ancestor" = none
    ∧ ((findModel env root spec timeout maxDepth direction).2).lookup "search_max_depth"
        = none
    ∧ (∀ k, k ≠ "ancestor" → k ≠ "search_max_depth" →
        ((findModel env root spec timeout maxDepth direction).2).lookup k = spec.lookup k)
    ∧ (∀ ancFind2 enumDesc2, (∀ r kw, enumDesc2 r none kw = env.enumDesc r none kw) →
        findModel ⟨env.enumTop, enumDesc2, env.isTopLevel, ancFind2, env.getp,
            env.checkAdv, env.reMatch, env.elapsedAt⟩ root
            ((findModel env root spec timeout maxDepth direction).2) timeout none direction
          = findModel env root ((findModel env root spec timeout maxDepth direction).2)
              timeout none direction) := by
  have hsnd : (findModel env root spec timeout maxDepth direction).2
      = eraseKey (eraseKey spec "search_max_depth") "ancestor" := rfl
  refine ⟨hsnd, ?_, ?_, ?_, ?_⟩
  · rw [hsnd, lookup_eraseKey_self]
  · rw [hsnd, lookup_eraseKey_ne _ _ _ (by decide), lookup_eraseKey_self]
  · intro k hka hks
    rw [hsnd, lookup_eraseKey_ne _ _ _ hka, lookup_eraseKey_ne _ _ _ hks]
  · intro ancFind2 enumDesc2 hd
    rw [hsnd]
    have hsm : (eraseKey (eraseKey spec "search_max_depth") "ancestor").lookup
        "search_max_depth" = none := by
      rw [lookup_eraseKey_ne _ _ _ (by decide), lookup_eraseKey_self]
    have han : (eraseKey (eraseKey (eraseKey spec "search_max_depth") "ancestor")
        "search_max_depth").lookup "ancestor" = none := by
      rw [lookup_eraseKey_ne _ _ _ (by decide), lookup_eraseKey_self]
    simp only [findModel, hsm, han]
    by_cases htop : env.isTopLevel root = true <;> simp [htop, hd]

/-- Witness for C9: a concrete spec loses its `ancestor` and
`search_max_depth` entries but keeps `pwa_title`, and the repeated call is
insensitive to the ancestor oracle. -/
theorem find_pops_spec_keys_witness :
    ((findModel (FindEnv.mk (fun _ _ => [1]) (fun _ _ _ => [2]) (fun _ => false)
          (fun _ => none) (fun _ _ => PVal.none_) (fun _ _ _ => true)
          (fun _ _ => false) (fun _ => 0)) (0 : ℕ)
        [("pwa_title", .s "t"), ("ancestor", .s "a"), ("search_max_depth", .i 3)]
        none none none).2).lookup "pwa_title" = some (.s "t")
    ∧ findModel (FindEnv.mk (fun _ _ => [1]) (fun _ _ _ => [2]) (fun _ => false)
          (fun _ => some 9) (fun _ _ => PVal.none_) (fun _ _ _ => true)
          (fun _ _ => false) (fun _ => 0)) (0 : ℕ)
        ((findModel (FindEnv.mk (fun _ _ => [1]) (fun _ _ _ => [2]) (fun _ => false)
            (fun _ => none) (fun _ _ => PVal.none_) (fun _ _ _ => true)
            (fun _ _ => false) (fun _ => 0)) (0 : ℕ)
          [("pwa_title", .s "t"), ("ancestor", .s "a"), ("search_max_depth", .i 3)]
          none none none).2) none none none
      = findModel (FindEnv.mk (fun _ _ => [1]) (fun _ _ _ => [2]) (fun _ => false)
          (fun _ => none) (fun _ _ => PVal.none_) (fun _ _ _ => true)
          (fun _ _ => false) (fun _ => 0)) (0 : ℕ)
        ((findModel (FindEnv.mk (fun _ _ => [1]) (fun _ _ _ => [2]) (fun _ => false)
            (fun _ => none) (fun _ _ => PVal.none_) (fun _ _ _ => true)
            (fun _ _ => false) (fun _ => 0)) (0 : ℕ)
          [("pwa_title", .s "t"), ("ancestor", .s "a"), ("search_max_depth", .i 3)]
          none none none).2) none none none := by
  constructor
  · rw [(find_pops_spec_keys (FindEnv.mk (fun _ _ => [1]) (fun _ _ _ => [2])
      (fun _ => false) (fun _ => none) (fun _ _ => PVal.none_) (fun _ _ _ => true)
      (fun _ _ => false) (fun _ => 0)) (0 : ℕ)
      [("pwa_title", .s "t"), ("ancestor", .s "a"), ("search_max_depth", .i 3)]
      none none none).2.2.2.1 "pwa_title" (by decide) (by decide)]
    rfl
  · exact (find_pops_spec_keys (FindEnv.mk (fun _ _ => [1]) (fun _ _ _ => [2])
      (fun _ => false) (fun _ => none) (fun _ _ => PVal.none_) (fun _ _ _ => true)
      (fun _ _ => false) (fun _ => 0)) (0 : ℕ)
      [("pwa_title", .s "t"), ("ancestor", .s "a"), ("search_max_depth", .i 3)]
      none none none).2.2.2.2 (fun _ => some 9) (fun _ _ _ => [2]) (fun _ _ => rfl)

/-- A stale element: every platform call raises.  Each dispatch step then
yields either the propagated error or a normal `None`. -/
lemma uiaStep_stale (e : RawElem) (msg : String) (hc : ∀ op, e.call op = .error msg)
    (prop : String) : exceptToNull (uiaStep e prop) = .none_ := by
  unfold uiaStep
  split_ifs <;> first | rfl | (simp only [hc]; rfl)

lemma relStep_stale (e : RawElem) (msg : String) (hc : ∀ op, e.call op = .error msg)
    (prop : String) : exceptToNull (relStep e prop) = .none_ := by
  unfold relStep
  split_ifs <;> first | (simp only [hc]; rfl) | exact uiaStep_stale e msg hc prop

lemma procStep_stale (e : RawElem) (msg : String) (hc : ∀ op, e.call op = .error msg)
    (prop : String) : exceptToNull (procStep e prop) = .none_ := by
  unfold procStep
  split_ifs <;> first | (simp only [hc]; rfl) | exact relStep_stale e msg hc prop

lemma geoStep_stale (e : RawElem) (msg : String) (hc : ∀ op, e.call op = .error msg)
    (prop : String) : exceptToNull (geoStep e prop) = .none_ := by
  unfold geoStep
  by_cases hg : prop ∈ GEO_PROPS
  · rw [if_pos hg]
    simp only [hc]
    split_ifs <;> first | rfl | exact procStep_stale e msg hc prop
  · rw [if_neg hg]
    exact procStep_stale e msg hc prop

lemma stateStep_stale (e : RawElem) (msg : String) (hc : ∀ op, e.call op = .error msg)
    (prop : String) : exceptToNull (stateStep e prop) = .none_ := by
  unfold stateStep
  by_cases hs : prop ∈ STATE_PROPS
  · rw [if_pos hs]
    split_ifs <;> first | (simp only [hc]; rfl) | exact geoStep_stale e msg hc prop
  · rw [if_neg hs]
    exact geoStep_stale e msg hc prop

lemma hwStep_stale (e : RawElem) (msg : String) (hc : ∀ op, e.call op = .error msg)
    (prop : String) : exceptToNull (hwStep e prop) = .none_ := by
  unfold hwStep
  simp only [hc]
  rfl

lemma pwaStep_stale (e : RawElem) (msg : String) (hc : ∀ op, e.call op = .error msg)
    (prop : String) : exceptToNull (pwaStep e prop) = .none_ := by
  unfold pwaStep
  split_ifs <;> first | (simp only [hc]; rfl) | exact hwStep_stale e msg hc prop


lemma uiaStep_not_mem (e : RawElem) (prop : String) (h7 : prop ∉ UIA_PROPS) :
    uiaStep e prop = .ok .none_ := by
  unfold uiaStep
  rw [if_neg (fun hcon => h7 hcon.1)]
  rfl

lemma relStep_not_mem (e : RawElem) (prop : String) (h6 : prop ∉ REL_PROPS)
    (h7 : prop ∉ UIA_PROPS) : relStep e prop = .ok .none_ := by
  unfold relStep
  rw [if_neg h6]
  exact uiaStep_not_mem e prop h7

lemma procStep_not_mem (e : RawElem) (prop : String) (h5 : prop ∉ PROC_PROPS)
    (h6 : prop ∉ REL_PROPS) (h7 : prop ∉ UIA_PROPS) : procStep e prop = .ok .none_ := by
  unfold procStep
  rw [if_neg h5]
  exact relStep_not_mem e prop h6 h7

lemma geoStep_not_mem (e : RawElem) (prop : String) (h4 : prop ∉ GEO_PROPS)
    (h5 : prop ∉ PROC_PROPS) (h6 : prop ∉ REL_PROPS) (h7 : prop ∉ UIA_PROPS) :
    geoStep e prop = .ok .none_ := by
  unfold geoStep
  rw [if_neg h4]
  exact procStep_not_mem e prop h5 h6 h7

lemma stateStep_not_mem (e : RawElem) (prop : String) (h3 : prop ∉ STATE_PROPS)
    (h4 : prop ∉ GEO_PROPS) (h5 : prop ∉ PROC_PROPS) (h6 : prop ∉ REL_PROPS)
    (h7 : prop ∉ UIA_PROPS) : stateStep e prop = .ok .none_ := by
  unfold stateStep
  rw [if_neg h3]
  exact geoStep_not_mem e prop h4 h5 h6 h7

/-- Exception propagation through a bind: an error short-circuits, a success
continues. -/
lemma exceptToNull_bind (r : Except String PVal) (f : PVal → Except String PVal)
    (hok : ∀ v, r = .ok v → exceptToNull (f v) = .none_) :
    exceptToNull (r >>= f) = .none_ := by
  cases r with
  | error m => rfl
  | ok v => exact hok v rfl

lemma hwStep_unsupported (e : RawElem) (prop : String) (h2 : prop ∉ WIN32_PROPS)
    (hth : prop ≠ "proc_thread_id") (hph : prop ≠ "rel_parent_handle")
    (h3 : prop ∉ STATE_PROPS) (h4 : prop ∉ GEO_PROPS) (h5 : prop ∉ PROC_PROPS)
    (h6 : prop ∉ REL_PROPS) (h7 : prop ∉ UIA_PROPS) :
    exceptToNull (hwStep e prop) = .none_ := by
  have hst : stateStep e prop = .ok .none_ := stateStep_not_mem e prop h3 h4 h5 h6 h7
  unfold hwStep
  refine exceptToNull_bind _ _ (fun handle _ => ?_)
  by_cases ht : pyTruthy handle = true
  · rw [if_pos ht, if_neg h2, if_neg hth, if_neg hph, hst]
    rfl
  · rw [if_neg ht, hst]
    rfl

lemma pwaStep_unsupported (e : RawElem) (prop : String)
    (h : prop ∉ SUPPORTED_FILTER_KEYS) : exceptToNull (pwaStep e prop) = .none_ := by
  simp only [SUPPORTED_FILTER_KEYS, List.mem_append, not_or] at h
  obtain ⟨⟨⟨⟨⟨⟨h1, h2⟩, h3⟩, h4⟩, h5⟩, h6⟩, h7⟩ := h
  have hth : prop ≠ "proc_thread_id" :=
    fun he => h5 (he ▸ (by decide : "proc_thread_id" ∈ PROC_PROPS))
  have hph : prop ≠ "rel_parent_handle" :=
    fun he => h6 (he ▸ (by decide : "rel_parent_handle" ∈ REL_PROPS))
  unfold pwaStep
  rw [if_neg h1]
  exact hwStep_unsupported e prop h2 hth hph h3 h4 h5 h6 h7


/-- C7: `get_property_value` returns a value or null and never raises — for a
stale element (every underlying platform call raising) it returns null, and
for an unsupported property name it returns null.  (Totality of the model —
no exception escapes — is the return type `PVal` itself: the outer
`try/except` is `exceptToNull`.) -/
theorem get_property_value_null_contract :
    (∀ e : RawElem, ∀ key msg, (∀ op, e.call op = .error msg) →
        get_property_value e key = .none_)
    ∧ (∀ e : RawElem, ∀ key, strLower key ∉ SUPPORTED_FILTER_KEYS →
        get_property_value e key = .none_) := by
  constructor
  · intro e key msg hc
    exact pwaStep_stale e msg hc (strLower key)
  · intro e key h
    exact pwaStep_unsupported e (strLower key) h

/-- Witness for C7: a concrete stale element read through `pwa_title` yields
null, and a live element read through an unknown property name yields null. -/
theorem get_property_value_null_contract_witness :
    get_property_value ⟨fun _ => .error "COMError: stale element", true, true, true,
        fun _ => .none_⟩ "pwa_title" = .none_
    ∧ get_property_value ⟨fun op => .ok (.s op), true, true, true, fun _ => .none_⟩
        "no_such_property" = .none_ := by
  constructor
  · exact get_property_value_null_contract.1 _ "pwa_title" "COMError: stale element"
      (fun _ => rfl)
  · exact get_property_value_null_contract.2 _ "no_such_property" (by decide)

/-- `get_window` never touches the snapshot cache. -/
lemma getWindow_snapshots (st : AppState) (env : GWEnv) :
    (getWindow st env).1.snapshots = st.snapshots := by
  obtain ⟨cw, snaps⟩ := st
  obtain ⟨vr, cv, sr⟩ := env
  cases cw <;> cases sr <;>
    simp [getWindow, getWindowScan, clearWindowCache] <;> split_ifs <;> rfl

/-- C8 (amended): `launch`, `attach` and `kill` clear both caches
unconditionally at entry — their outcome is independent of the prior cache
contents, they always leave the snapshot cache empty, and `kill` empties both
caches (launch/attach may re-populate the window cache with the freshly
resolved window).  `close` clears both caches only when it finds the window
and observes it close (or indirectly through its fallback `kill` when the
window will not close); when the window cannot be found, `close` reports
success but leaves both caches exactly as `get_window` left them. -/
theorem lifecycle_cache_invalidation :
    (∀ st st' : AppState, ∀ env : LaunchEnv, launchApp st env = launchApp st' env)
    ∧ (∀ st : AppState, ∀ env : LaunchEnv, (launchApp st env).1.snapshots = [])
    ∧ (∀ st st' : AppState, ∀ o : AttachOutcome, attachApp st o = attachApp st' o)
    ∧ (∀ st : AppState, ∀ o : AttachOutcome, (attachApp st o).1.snapshots = [])
    ∧ (∀ st : AppState, killApp st = ⟨none, []⟩)
    ∧ (∀ st : AppState, ∀ env : CloseEnv, env.closeRaises = false → env.closes = true →
        ((getWindow st env.gw).2).isSome = true → (closeApp st env).1 = ⟨none, []⟩)
    ∧ (∀ st : AppState, ∀ env : CloseEnv, (getWindow st env.gw).2 = none →
        (closeApp st env).1 = (getWindow st env.gw).1 ∧ (closeApp st env).2 = true) := by
  have hlaunch_snap : ∀ (st : AppState) (env : LaunchEnv),
      (launchApp st env).1.snapshots = [] := by
    intro st env
    simp only [launchApp, clearAllCaches]
    split_ifs <;> try rfl
    rcases hgw : getWindow ⟨none, []⟩ env.gw with ⟨st2, w⟩
    have hsn : st2.snapshots = ([] : List (String × ℕ)) := by
      have := getWindow_snapshots ⟨none, []⟩ env.gw
      rw [hgw] at this
      exact this
    cases w <;> simp [killApp, clearAllCaches, hsn]
  refine ⟨fun st st' env => rfl, hlaunch_snap, fun st st' o => rfl, ?_, fun st => rfl,
    ?_, ?_⟩
  · intro st o
    cases o <;>
      first
        | rfl
        | (apply hlaunch_snap)
        | (simp only [attachApp, clearAllCaches]; split_ifs <;> rfl)
  · intro st env hraise hclose hsome
    simp only [closeApp]
    rcases hgw : getWindow st env.gw with ⟨st1, w⟩
    rw [hgw] at hsome
    cases w with
    | none => simp at hsome
    | some v => simp [hraise, hclose, clearAllCaches]
  · intro st env hnone
    simp only [closeApp]
    rcases hgw : getWindow st env.gw with ⟨st1, w⟩
    rw [hgw] at hnone
    simp only at hnone
    subst hnone
    simp

/-- Witness for C8 (amended): a populated manager closing its window
successfully ends with both caches empty, and when the window cannot be found
`close` leaves a populated snapshot cache in place. -/
theorem lifecycle_cache_invalidation_witness :
    (closeApp ⟨some 5, [("k", 1)]⟩ ⟨⟨false, true, none⟩, false, true⟩).1
      = (⟨none, []⟩ : AppState)
    ∧ (closeApp ⟨none, [("k", 1)]⟩ ⟨⟨false, false, none⟩, false, false⟩).1
      = (⟨none, [("k", 1)]⟩ : AppState) := by
  constructor
  · exact lifecycle_cache_invalidation.2.2.2.2.2.1 ⟨some 5, [("k", 1)]⟩
      ⟨⟨false, true, none⟩, false, true⟩ rfl rfl rfl
  · exact (lifecycle_cache_invalidation.2.2.2.2.2.2 ⟨none, [("k", 1)]⟩
      ⟨⟨false, false, none⟩, false, false⟩ rfl).1

/-- Counterexample to C8 as stated: a `close` transition on a manager whose
window cannot be found (cache empty, scan finds nothing) reports success yet
leaves the snapshot cache populated — `close` does not always clear the
caches. -/
theorem close_keeps_snapshots_counterexample :
    (closeApp ⟨none, [("main", 7)]⟩ ⟨⟨false, false, none⟩, false, false⟩).1.snapshots
      = [("main", 7)]
    ∧ (closeApp ⟨none, [("main", 7)]⟩ ⟨⟨false, false, none⟩, false, false⟩).2 = true := by
  constructor <;> rfl

end PWAuto
